import Mathlib

/-!
Verification of the conversation/translation/read-tracking core of a
two-party chat application (`chatapp.py`).

The Python module keeps three global dictionaries:

* `users : Dict[str, Dict[str, str]]` — registered users with
  `display_name` and `language`;
* `conversations : Dict[Tuple[str, str], List[Dict[str, str]]]` — the
  per-pair message logs keyed by the canonical (sorted) pair of ids;
* `user_seen : Dict[str, Dict[Tuple[str, str], int]]` — per-viewer,
  per-key seen marks.

Python dictionaries are modelled as insertion-ordered association lists:
lookup finds the first matching key, assignment replaces the value in
place (keeping its position) or appends a fresh pair at the end, and
`setdefault` appends a default at the end when the key is absent.  The
fallible external translation provider is modelled as an explicit
`Except`-valued response that is passed into the operations that call it,
and Python `KeyError`s are modelled as `Option`-valued results.
-/

/-- Python dict lookup `d.get(k)`: first matching key of the association
list, `none` when absent. -/
def alookup {α β : Type} [DecidableEq α] : List (α × β) → α → Option β
  | [], _ => none
  | (k, v) :: rest, key => if k = key then some v else alookup rest key

/-- Python dict assignment `d[k] = v`: replace the value in place when the
key is present (keeping its position), otherwise append at the end. -/
def ainsert {α β : Type} [DecidableEq α] : List (α × β) → α → β → List (α × β)
  | [], key, val => [(key, val)]
  | (k, v) :: rest, key, val =>
    if k = key then (k, val) :: rest else (k, v) :: ainsert rest key val

/-- Python `d.setdefault(k, d0)`'s effect on the dict: append `(k, d0)`
when the key is absent, otherwise leave the dict unchanged. -/
def adefault {α β : Type} [DecidableEq α] (l : List (α × β)) (k : α) (d : β) :
    List (α × β) :=
  match alookup l k with
  | some _ => l
  | none => l ++ [(k, d)]

/-- A registered user's record: the values of the Python per-user dict
`{"display_name": ..., "language": ...}`. -/
structure UserData where
  display_name : String
  language : String
deriving Repr, DecidableEq

/-- A stored message: the Python entry dict built by `save_message`. -/
structure Entry where
  sender : String
  recipient : String
  original_text : String
  translated_text : String
deriving Repr, DecidableEq

/-- The three global dictionaries of `chatapp.py`. -/
structure ChatState where
  users : List (String × UserData)
  conversations : List ((String × String) × List Entry)
  user_seen : List (String × List ((String × String) × Nat))
deriving Repr, DecidableEq

/-- Python's `<=` comparison on strings: lexicographic comparison of the
code-point sequences.  (Defined structurally so that concrete instances
compute inside the kernel.) -/
def lexLe : List Char → List Char → Bool
  | [], _ => true
  | _ :: _, [] => false
  | c1 :: t1, c2 :: t2 =>
    if c1 < c2 then true else if c2 < c1 then false else lexLe t1 t2

/-- Python's `str.strip()`: drop leading and trailing whitespace. -/
def pyStrip (s : String) : String :=
  ⟨((s.data.dropWhile Char.isWhitespace).reverse.dropWhile
      Char.isWhitespace).reverse⟩

/-- Python's `str.lower()`. -/
def pyLower (s : String) : String :=
  ⟨s.data.map Char.toLower⟩

/-- Does the second list start with the first? -/
def charsStartWith : List Char → List Char → Bool
  | [], _ => true
  | _ :: _, [] => false
  | a :: as, b :: bs => a = b && charsStartWith as bs

/-- Does the second list contain the first as a contiguous segment? -/
def containsChars : List Char → List Char → Bool
  | needle, [] => needle.isEmpty
  | needle, c :: rest => charsStartWith needle (c :: rest) || containsChars needle rest

/-- The function `conversation_key`: `tuple(sorted((user_a, user_b)))` — the pair
sorted lexicographically. -/
def conversation_key (user_a user_b : String) : String × String :=
  if lexLe user_a.data user_b.data then (user_a, user_b) else (user_b, user_a)

/-- The lookup `conversations.get(key, [])`. -/
def getConv (st : ChatState) (key : String × String) : List Entry :=
  (alookup st.conversations key).getD []

/-- The seen mark of `viewer` for `key`: `user_seen.get(viewer, {}).get(key, 0)`. -/
def getSeen (st : ChatState) (viewer : String) (key : String × String) : Nat :=
  (alookup ((alookup st.user_seen viewer).getD []) key).getD 0

/-- The function `ensure_user_seen`: `user_seen.setdefault(username, ...)`.  Returns the
viewer's per-key dict together with the (possibly extended) state. -/
def ensure_user_seen (st : ChatState) (username : String) :
    List ((String × String) × Nat) × ChatState :=
  ((alookup st.user_seen username).getD [],
   { st with user_seen := adefault st.user_seen username [] })

/-- The function `mark_conversation_seen(viewer, partner_key)`: sets the viewer's seen
mark for the canonical key to the current log length. -/
def mark_conversation_seen (st : ChatState) (viewer partner_key : String) :
    ChatState :=
  let key := conversation_key viewer partner_key
  let p := ensure_user_seen st viewer
  { p.2 with
    user_seen :=
      ainsert p.2.user_seen viewer (ainsert p.1 key (getConv st key).length) }

/-- The function `unread_count(username, partner_key)`:
`max(len(conversations.get(key, [])) - seen, 0)` where
`seen = ensure_user_seen(username).get(key, 0)`.  The `setdefault` inside
`ensure_user_seen` mutates the state, so the updated state is returned
alongside the count. -/
def unread_count (st : ChatState) (username partner_key : String) :
    Int × ChatState :=
  let key := conversation_key username partner_key
  let total := (getConv st key).length
  let p := ensure_user_seen st username
  let seen := (alookup p.1 key).getD 0
  (max ((total : Int) - (seen : Int)) 0, p.2)

/-- The function `save_message(sender, recipient, original_text, translated_text)`:
appends the entry to the canonical key's log and advances the sender's
seen mark to the new length.  Returns the stored entry and the new state. -/
def save_message (st : ChatState) (sender recipient original_text translated_text : String) :
    Entry × ChatState :=
  let key := conversation_key sender recipient
  let entry : Entry :=
    { sender := sender, recipient := recipient,
      original_text := original_text, translated_text := translated_text }
  let bucket := getConv st key ++ [entry]
  let st1 := { st with conversations := ainsert st.conversations key bucket }
  let p := ensure_user_seen st1 sender
  (entry,
   { p.2 with
     user_seen := ainsert p.2.user_seen sender (ainsert p.1 key bucket.length) })

/-- The provider's response to one `generate_content` call: `.error` when
the call raises, `.ok t` where `t` is the response's `text` field (which
may be `None`, modelled as `none`). -/
abbrev ProviderResponse := Except String (Option String)

/-- The function `translate_message(message_text, target_language)`: propagates a
raised provider error; on success returns
`response.text.strip() if response.text else message_text` (both `None`
and the empty string are falsy in Python). -/
def translate_message (message_text : String) (response : ProviderResponse) :
    Except String String :=
  match response with
  | .error e => .error e
  | .ok none => .ok message_text
  | .ok (some s) => .ok (if s = "" then message_text else pyStrip s)

/-- One rendered message of `serialize_messages`' output list. -/
structure ViewEntry where
  is_self : Bool
  sender_label : String
  primary_text : String
  secondary_label : String
  secondary_text : String
  created_by : String
deriving Repr, DecidableEq

/-- The loop body of `serialize_messages`: renders one stored entry for
`viewer`.  `none` models the `KeyError` raised by `users[entry["sender"]]`
when the sender of a foreign message is not registered. -/
def project_entry (us : List (String × UserData)) (viewer : String)
    (partner_data : UserData) (entry : Entry) : Option ViewEntry :=
  if entry.sender = viewer then
    some
      { is_self := true
        sender_label := "You"
        primary_text := entry.original_text
        secondary_label := "Translated for " ++ partner_data.display_name
          ++ " (" ++ partner_data.language ++ "):"
        secondary_text := entry.translated_text
        created_by := entry.sender }
  else
    match alookup us entry.sender with
    | none => none
    | some sender_data =>
      some
        { is_self := false
          sender_label := sender_data.display_name
          primary_text :=
            if entry.translated_text = "" then entry.original_text
            else entry.translated_text
          secondary_label := "Original message in " ++ sender_data.language ++ ":"
          secondary_text := entry.original_text
          created_by := entry.sender }

/-- The `for entry in raw_messages` loop: renders every entry, failing at
the first entry whose rendering raises. -/
def project_all (us : List (String × UserData)) (viewer : String)
    (partner_data : UserData) : List Entry → Option (List ViewEntry)
  | [] => some []
  | e :: rest =>
    match project_entry us viewer partner_data e,
          project_all us viewer partner_data rest with
    | some v, some vs => some (v :: vs)
    | _, _ => none

/-- The function `serialize_messages(viewer, partner_key, mark_seen)`: looks up the
partner's record unconditionally (`users[partner_key]`, a `KeyError` —
`none` — when absent), renders the whole log for the viewer, and finally
marks the conversation seen when requested. -/
def serialize_messages (st : ChatState) (viewer partner_key : String)
    (mark_seen : Bool) : Option (List ViewEntry × ChatState) :=
  let key := conversation_key viewer partner_key
  let raw_messages := getConv st key
  match alookup st.users partner_key with
  | none => none
  | some partner_data =>
    match project_all st.users viewer partner_data raw_messages with
    | none => none
    | some messages_for_view =>
      some (messages_for_view,
        if mark_seen then mark_conversation_seen st viewer partner_key else st)

/-- The outcome the `send_message` route reports to its caller: the
validation 400s, the catch-all 500 (`"Could not translate your message:
{exc}"`), or the 200 payload with the rendered new message. -/
inductive SendResult where
  | invalidConversation
  | emptyMessage
  | sendError (msg : String)
  | sent (v : ViewEntry)
deriving Repr, DecidableEq

/-- The body of the `send_message` route after authentication, for an
already-normalized partner id: validates the partner and the message
text, calls the provider, stores the message on success, and answers with
the last rendered entry.  The `try`/`except` around the translate/store/
render sequence turns any raised exception into the 500 error. -/
def send_message (st : ChatState) (user partner_key raw : String)
    (response : ProviderResponse) : SendResult × ChatState :=
  if (alookup st.users partner_key).isNone ∨ partner_key = user then
    (.invalidConversation, st)
  else
    let message_text := pyStrip raw
    if message_text = "" then (.emptyMessage, st)
    else
      match translate_message message_text response with
      | .error exc =>
        (.sendError ("Could not translate your message: " ++ exc), st)
      | .ok translated_text =>
        let p := save_message st user partner_key message_text translated_text
        match serialize_messages p.2 user partner_key false with
        | none => (.sendError "Could not translate your message: KeyError", p.2)
        | some (messages, st2) =>
          match messages.getLast? with
          | none => (.sendError "Could not translate your message: IndexError", st2)
          | some v => (.sent v, st2)

/-- One annotated contact of the dashboard payload. -/
structure ContactInfo where
  username : String
  display_name : String
  language : String
  unread_count : Int
deriving Repr, DecidableEq

/-- Python's substring test `needle in haystack`. -/
def strContains (haystack needle : String) : Bool :=
  containsChars needle.data haystack.data

/-- Stable insertion by case-insensitive display name, modelling
`list.sort(key=lambda item: item["display_name"].lower())`. -/
def insertByName (x : ContactInfo) : List ContactInfo → List ContactInfo
  | [] => [x]
  | y :: rest =>
    if lexLe (pyLower x.display_name).data (pyLower y.display_name).data then
      x :: y :: rest
    else y :: insertByName x rest

/-- Stable sort by case-insensitive display name. -/
def sortByName : List ContactInfo → List ContactInfo
  | [] => []
  | x :: rest => insertByName x (sortByName rest)

/-- The `for username, data in users.items()` loop of
`build_dashboard_payload`: skips the viewer, filters by the lowercased
query, and annotates each match with `unread_count` (whose
`ensure_user_seen` side effect is threaded through the state). -/
def matches_loop (user query_lower : String) :
    ChatState → List (String × UserData) → List ContactInfo × ChatState
  | st, [] => ([], st)
  | st, (username, data) :: rest =>
    if username = user then matches_loop user query_lower st rest
    else if query_lower = "" ∨ strContains (pyLower data.display_name) query_lower then
      let p := unread_count st user username
      let q := matches_loop user query_lower p.2 rest
      ({ username := username, display_name := data.display_name,
         language := data.language, unread_count := p.1 } :: q.1, q.2)
    else matches_loop user query_lower st rest

/-- The `for key in conversations.keys()` loop of
`build_dashboard_payload`: collects each registered, not yet listed
partner sharing a conversation key with the viewer. -/
def recent_loop (user : String) :
    ChatState → List String → List ((String × String) × List Entry) →
    List ContactInfo × ChatState
  | st, _, [] => ([], st)
  | st, seen_partners, (key, _) :: rest =>
    if key.1 = user ∨ key.2 = user then
      let other := if key.1 ≠ user then key.1 else key.2
      match alookup st.users other with
      | none => recent_loop user st seen_partners rest
      | some data =>
        if seen_partners.contains other then
          recent_loop user st seen_partners rest
        else
          let p := unread_count st user other
          let q := recent_loop user p.2 (other :: seen_partners) rest
          ({ username := other, display_name := data.display_name,
             language := data.language, unread_count := p.1 } :: q.1, q.2)
    else recent_loop user st seen_partners rest

/-- The dashboard payload: search matches and recent contacts
(`matches` is a reserved word in Lean, hence `search_matches`). -/
structure DashboardPayload where
  search_matches : List ContactInfo
  recent_contacts : List ContactInfo
deriving Repr, DecidableEq

/-- The function `build_dashboard_payload(user, query)`.  The `unread_count` calls are
the only state-touching steps, so the (benign) `setdefault` effects are
threaded through and the final state returned. -/
def build_dashboard_payload (st : ChatState) (user query : String) :
    DashboardPayload × ChatState :=
  let query_lower := pyLower (pyStrip query)
  let m := matches_loop user query_lower st st.users
  let r := recent_loop user m.2 [] m.2.conversations
  ({ search_matches := sortByName m.1, recent_contacts := sortByName r.1 }, r.2)

/-- The login route's user upsert: `users[username_key] = {...}` (or the
display-name/language update for an existing record) followed by
`ensure_user_seen(username_key)`. -/
def register_user (st : ChatState) (username_key : String) (data : UserData) :
    ChatState :=
  (ensure_user_seen { st with users := ainsert st.users username_key data }
    username_key).2

/-- The empty initial state of the module's three global dicts. -/
def initState : ChatState :=
  { users := [], conversations := [], user_seen := [] }

/-- One core operation applied to the shared state: a user upsert, a
send, an explicit mark-seen, a conversation listing, or a dashboard
build. -/
inductive Step : ChatState → ChatState → Prop where
  | register (st : ChatState) (u : String) (d : UserData) :
      Step st (register_user st u d)
  | send (st : ChatState) (u p raw : String) (r : ProviderResponse) :
      Step st (send_message st u p raw r).2
  | mark (st : ChatState) (v p : String) :
      Step st (mark_conversation_seen st v p)
  | list (st : ChatState) (v p : String) (m : Bool) (vs : List ViewEntry)
      (st' : ChatState) (h : serialize_messages st v p m = some (vs, st')) :
      Step st st'
  | dash (st : ChatState) (u q : String) :
      Step st (build_dashboard_payload st u q).2

/-- States reachable from the empty initial state by core operations. -/
inductive Reachable : ChatState → Prop where
  | init : Reachable initState
  | step (st st' : ChatState) (h1 : Reachable st) (h2 : Step st st') :
      Reachable st'

/-- The seen-mark invariant: every seen mark is bounded by the length of
the log it points into. -/
def SeenInv (st : ChatState) : Prop :=
  ∀ v k, getSeen st v k ≤ (getConv st k).length

/-- A small concrete state used by the closed instantiations below:
"alice" and "bob" registered via the login upsert, then one message
"Hello"/"Bonjour" sent from alice to bob. -/
def demoBase : ChatState :=
  register_user
    (register_user initState "alice" { display_name := "Alice", language := "English" })
    "bob" { display_name := "Bob", language := "French" }

/-- The state `demoBase` after alice sends "Hello" to bob, translated "Bonjour". -/
def demoState : ChatState :=
  (send_message demoBase "alice" "bob" "Hello" (.ok (some "Bonjour"))).2

/-- The one stored message of `demoState`. -/
def demoEntry : Entry :=
  { sender := "alice", recipient := "bob",
    original_text := "Hello", translated_text := "Bonjour" }

/-- The conversation of `demoState` as rendered for viewer "bob". -/
def demoViews : List ViewEntry :=
  [{ is_self := false, sender_label := "Alice", primary_text := "Bonjour",
     secondary_label := "Original message in English:",
     secondary_text := "Hello", created_by := "alice" }]

/-! ### Association-list lemmas -/

theorem alookup_ainsert_self {α β : Type} [DecidableEq α]
    (l : List (α × β)) (k : α) (v : β) : alookup (ainsert l k v) k = some v := by
  induction l with
  | nil => simp [ainsert, alookup]
  | cons hd tl ih =>
    obtain ⟨k', v'⟩ := hd
    by_cases h : k' = k <;> simp [ainsert, alookup, h, ih]

theorem alookup_ainsert_ne {α β : Type} [DecidableEq α]
    (l : List (α × β)) (k : α) (v : β) (k' : α) (h : k' ≠ k) :
    alookup (ainsert l k v) k' = alookup l k' := by
  induction l with
  | nil => simp [ainsert, alookup, Ne.symm h]
  | cons hd tl ih =>
    obtain ⟨k'', v''⟩ := hd
    by_cases hk : k'' = k
    · subst hk
      simp [ainsert, alookup, Ne.symm h]
    · simp [ainsert, alookup, hk, ih]

theorem ainsert_lookup_eq {α β : Type} [DecidableEq α]
    (l : List (α × β)) (k : α) (v : β) (h : alookup l k = some v) :
    ainsert l k v = l := by
  induction l with
  | nil => simp [alookup] at h
  | cons hd tl ih =>
    obtain ⟨k', v'⟩ := hd
    by_cases hk : k' = k
    · subst hk
      simp [alookup] at h
      simp [ainsert, h]
    · simp [alookup, hk] at h
      simp [ainsert, hk, ih h]

theorem alookup_append_absent {α β : Type} [DecidableEq α]
    (l : List (α × β)) (k : α) (d : β) (hl : alookup l k = none) :
    alookup (l ++ [(k, d)]) k = some d := by
  induction l with
  | nil => simp [alookup]
  | cons hd tl ih =>
    obtain ⟨k', v'⟩ := hd
    by_cases hk : k' = k
    · simp [alookup, hk] at hl
    · simp [alookup, hk] at hl ⊢
      exact ih hl

theorem alookup_append_other {α β : Type} [DecidableEq α]
    (l : List (α × β)) (k : α) (d : β) (k' : α) (h : k' ≠ k) :
    alookup (l ++ [(k, d)]) k' = alookup l k' := by
  induction l with
  | nil => simp [alookup, Ne.symm h]
  | cons hd tl ih =>
    obtain ⟨k'', v''⟩ := hd
    by_cases hk : k'' = k' <;> simp [alookup, hk, ih]

theorem alookup_adefault_self {α β : Type} [DecidableEq α]
    (l : List (α × β)) (k : α) (d : β) :
    alookup (adefault l k d) k = some ((alookup l k).getD d) := by
  unfold adefault
  cases h : alookup l k with
  | some v => simp [h]
  | none => simp [alookup_append_absent l k d h]

theorem alookup_adefault_ne {α β : Type} [DecidableEq α]
    (l : List (α × β)) (k : α) (d : β) (k' : α) (h : k' ≠ k) :
    alookup (adefault l k d) k' = alookup l k' := by
  unfold adefault
  cases hl : alookup l k with
  | some v => simp
  | none => simp [alookup_append_other l k d k' h]

/-! ### Canonical-key symmetry -/

theorem lexLe_total (l1 l2 : List Char) : lexLe l1 l2 = true ∨ lexLe l2 l1 = true := by
  induction l1 generalizing l2 with
  | nil => exact Or.inl rfl
  | cons c1 t1 ih =>
    cases l2 with
    | nil => exact Or.inr rfl
    | cons c2 t2 =>
      rcases lt_trichotomy c1 c2 with h | h | h
      · left
        simp [lexLe, h]
      · subst h
        rcases ih t2 with h2 | h2
        · left
          simp [lexLe, lt_irrefl c1, h2]
        · right
          simp [lexLe, lt_irrefl c1, h2]
      · right
        simp [lexLe, h]

theorem lexLe_antisymm (l1 l2 : List Char) (h1 : lexLe l1 l2 = true)
    (h2 : lexLe l2 l1 = true) : l1 = l2 := by
  induction l1 generalizing l2 with
  | nil =>
    cases l2 with
    | nil => rfl
    | cons c t => simp [lexLe] at h2
  | cons c1 t1 ih =>
    cases l2 with
    | nil => simp [lexLe] at h1
    | cons c2 t2 =>
      rcases lt_trichotomy c1 c2 with h | h | h
      · exfalso
        simp [lexLe, h, lt_asymm h] at h2
      · subst h
        simp [lexLe, lt_irrefl c1] at h1 h2
        rw [ih t2 h1 h2]
      · exfalso
        simp [lexLe, h, lt_asymm h] at h1

theorem conversation_key_comm (a b : String) :
    conversation_key a b = conversation_key b a := by
  unfold conversation_key
  rcases lexLe_total a.data b.data with h | h
  · by_cases h2 : lexLe b.data a.data = true
    · have hab : a = b := congrArg String.mk (lexLe_antisymm _ _ h h2)
      subst hab
      simp
    · rw [if_pos h, if_neg h2]
  · by_cases h2 : lexLe a.data b.data = true
    · have hab : a = b := congrArg String.mk (lexLe_antisymm _ _ h2 h)
      subst hab
      simp
    · rw [if_neg h2, if_pos h]

/-! ### Effect of each state transformer on the three dictionaries -/

theorem users_ensure (st : ChatState) (u : String) :
    (ensure_user_seen st u).2.users = st.users := rfl

theorem conversations_ensure (st : ChatState) (u : String) :
    (ensure_user_seen st u).2.conversations = st.conversations := rfl

theorem getConv_ensure (st : ChatState) (u : String) (k : String × String) :
    getConv (ensure_user_seen st u).2 k = getConv st k := rfl

theorem getSeen_ensure (st : ChatState) (u v : String) (k : String × String) :
    getSeen (ensure_user_seen st u).2 v k = getSeen st v k := by
  unfold getSeen ensure_user_seen
  by_cases h : v = u
  · subst h
    simp [alookup_adefault_self]
  · simp [alookup_adefault_ne _ _ _ _ h]

theorem users_mark (st : ChatState) (v p : String) :
    (mark_conversation_seen st v p).users = st.users := rfl

theorem conversations_mark (st : ChatState) (v p : String) :
    (mark_conversation_seen st v p).conversations = st.conversations := rfl

theorem getConv_mark (st : ChatState) (v p : String) (k : String × String) :
    getConv (mark_conversation_seen st v p) k = getConv st k := rfl

theorem getSeen_mark (st : ChatState) (v p : String) (v' : String)
    (k : String × String) :
    getSeen (mark_conversation_seen st v p) v' k =
      if v' = v ∧ k = conversation_key v p then
        (getConv st (conversation_key v p)).length
      else getSeen st v' k := by
  unfold getSeen mark_conversation_seen ensure_user_seen
  by_cases hv : v' = v
  · subst hv
    by_cases hk : k = conversation_key v' p
    · subst hk
      simp [alookup_ainsert_self]
    · simp [alookup_ainsert_self, alookup_ainsert_ne _ _ _ _ hk, hk]
  · simp [alookup_ainsert_ne _ _ _ _ hv, alookup_adefault_ne _ _ _ _ hv, hv]

theorem entry_save (st : ChatState) (s r o t : String) :
    (save_message st s r o t).1 =
      { sender := s, recipient := r, original_text := o, translated_text := t } :=
  rfl

theorem users_save (st : ChatState) (s r o t : String) :
    (save_message st s r o t).2.users = st.users := rfl

theorem getConv_save (st : ChatState) (s r o t : String) (k : String × String) :
    getConv (save_message st s r o t).2 k =
      if k = conversation_key s r then
        getConv st k ++
          [{ sender := s, recipient := r, original_text := o, translated_text := t }]
      else getConv st k := by
  unfold getConv save_message
  by_cases hk : k = conversation_key s r
  · subst hk
    simp [conversations_ensure, alookup_ainsert_self, getConv]
  · simp [conversations_ensure, alookup_ainsert_ne _ _ _ _ hk, hk]

theorem getSeen_save (st : ChatState) (s r o t : String) (v : String)
    (k : String × String) :
    getSeen (save_message st s r o t).2 v k =
      if v = s ∧ k = conversation_key s r then
        (getConv st (conversation_key s r)).length + 1
      else getSeen st v k := by
  unfold getSeen save_message ensure_user_seen
  by_cases hv : v = s
  · subst hv
    by_cases hk : k = conversation_key v r
    · subst hk
      simp [alookup_ainsert_self]
    · simp [alookup_ainsert_self, alookup_ainsert_ne _ _ _ _ hk, hk]
  · simp [alookup_ainsert_ne _ _ _ _ hv, alookup_adefault_ne _ _ _ _ hv, hv]

theorem unread_count_eq (st : ChatState) (u p : String) :
    (unread_count st u p).1 =
      max (((getConv st (conversation_key u p)).length : Int)
        - (getSeen st u (conversation_key u p) : Int)) 0 := rfl

theorem unread_state (st : ChatState) (u p : String) :
    (unread_count st u p).2 = (ensure_user_seen st u).2 := rfl

/-! ### Characterizations of `serialize_messages` and `send_message` -/

theorem serialize_state (st : ChatState) (v p : String) (m : Bool)
    (vs : List ViewEntry) (st' : ChatState)
    (h : serialize_messages st v p m = some (vs, st')) :
    st' = if m then mark_conversation_seen st v p else st := by
  unfold serialize_messages at h
  cases h1 : alookup st.users p with
  | none => simp [h1] at h
  | some pd =>
    simp only [h1] at h
    cases h2 : project_all st.users v pd (getConv st (conversation_key v p)) with
    | none => simp [h2] at h
    | some ws =>
      simp only [h2, Option.some.injEq, Prod.mk.injEq] at h
      exact h.2.symm

theorem serialize_views (st : ChatState) (v p : String) (m : Bool)
    (vs : List ViewEntry) (st' : ChatState)
    (h : serialize_messages st v p m = some (vs, st')) :
    ∃ pd, alookup st.users p = some pd ∧
      project_all st.users v pd (getConv st (conversation_key v p)) = some vs := by
  unfold serialize_messages at h
  cases h1 : alookup st.users p with
  | none => simp [h1] at h
  | some pd =>
    simp only [h1] at h
    cases h2 : project_all st.users v pd (getConv st (conversation_key v p)) with
    | none => simp [h2] at h
    | some ws =>
      simp only [h2, Option.some.injEq, Prod.mk.injEq] at h
      exact ⟨pd, rfl, by rw [h2, h.1]⟩

theorem project_all_length (us : List (String × UserData)) (v : String)
    (pd : UserData) (l : List Entry) (r : List ViewEntry)
    (h : project_all us v pd l = some r) : r.length = l.length := by
  induction l generalizing r with
  | nil =>
    unfold project_all at h
    simp at h
    simp [← h]
  | cons e rest ih =>
    unfold project_all at h
    cases h1 : project_entry us v pd e with
    | none => simp [h1] at h
    | some w =>
      cases h2 : project_all us v pd rest with
      | none => simp [h1, h2] at h
      | some ws =>
        simp [h1, h2] at h
        simp [← h, ih ws h2]

theorem project_all_get (us : List (String × UserData)) (v : String)
    (pd : UserData) (l : List Entry) (r : List ViewEntry)
    (h : project_all us v pd l = some r) (i : Nat) (e : Entry)
    (he : l[i]? = some e) :
    ∃ w, r[i]? = some w ∧ project_entry us v pd e = some w := by
  induction l generalizing r i with
  | nil => simp at he
  | cons e0 rest ih =>
    unfold project_all at h
    cases h1 : project_entry us v pd e0 with
    | none => simp [h1] at h
    | some w0 =>
      cases h2 : project_all us v pd rest with
      | none => simp [h1, h2] at h
      | some ws =>
        simp [h1, h2] at h
        cases i with
        | zero =>
          simp at he
          subst he
          exact ⟨w0, by simp [← h], h1⟩
        | succ j =>
          simp at he
          obtain ⟨w, hw1, hw2⟩ := ih ws h2 j he
          exact ⟨w, by simp [← h, hw1], hw2⟩

theorem project_all_total (us : List (String × UserData)) (v : String)
    (pd : UserData) (l : List Entry)
    (h : ∀ e ∈ l, e.sender = v ∨ (alookup us e.sender).isSome) :
    ∃ r, project_all us v pd l = some r := by
  induction l with
  | nil => exact ⟨[], rfl⟩
  | cons e rest ih =>
    obtain ⟨r, hr⟩ := ih (fun e' he' => h e' (List.mem_cons_of_mem _ he'))
    have he : e.sender = v ∨ (alookup us e.sender).isSome :=
      h e (List.mem_cons_self _ _)
    have hw : ∃ w, project_entry us v pd e = some w := by
      unfold project_entry
      by_cases hv : e.sender = v
      · simp [hv]
      · rcases he with he | he
        · exact absurd he hv
        · cases hs : alookup us e.sender with
          | none => simp [hs] at he
          | some sd => simp [hv, hs]
    obtain ⟨w, hw⟩ := hw
    refine ⟨w :: r, ?_⟩
    unfold project_all
    rw [hw, hr]

theorem translate_ok (msg : String) (t : Option String) :
    translate_message msg (.ok t) =
      .ok (match t with
           | none => msg
           | some s => if s = "" then msg else pyStrip s) := by
  cases t <;> rfl

theorem send_provider_error (st : ChatState) (u p raw e : String)
    (hp : (alookup st.users p).isSome) (hpu : p ≠ u) (hm : ¬ (pyStrip raw) = "") :
    send_message st u p raw (.error e) =
      (.sendError ("Could not translate your message: " ++ e), st) := by
  have hcond : ¬ ((alookup st.users p).isNone = true ∨ p = u) := by
    simp [Option.isNone_iff_eq_none, Option.isSome_iff_exists] at hp ⊢
    obtain ⟨v, hv⟩ := hp
    simp [hv, hpu]
  unfold send_message
  rw [if_neg hcond, if_neg hm]
  rfl

theorem send_ok_state (st : ChatState) (u p raw : String) (t : Option String)
    (tx : String) (hp : (alookup st.users p).isSome) (hpu : p ≠ u)
    (hm : ¬ (pyStrip raw) = "") (ht : translate_message (pyStrip raw) (.ok t) = .ok tx) :
    (send_message st u p raw (.ok t)).2 = (save_message st u p (pyStrip raw) tx).2 := by
  have hcond : ¬ ((alookup st.users p).isNone = true ∨ p = u) := by
    simp [Option.isNone_iff_eq_none, Option.isSome_iff_exists] at hp ⊢
    obtain ⟨v, hv⟩ := hp
    simp [hv, hpu]
  unfold send_message
  rw [if_neg hcond, if_neg hm, ht]
  cases hs : serialize_messages (save_message st u p (pyStrip raw) tx).2 u p false with
  | none => simp [hs]
  | some pr =>
    obtain ⟨vs, st2⟩ := pr
    have h2 := serialize_state _ _ _ _ _ _ hs
    simp at h2
    subst h2
    cases hl : vs.getLast? <;> simp [hs, hl]

theorem send_ok_sent (st : ChatState) (u p raw : String) (t : Option String)
    (tx : String) (hp : (alookup st.users p).isSome) (hpu : p ≠ u)
    (hm : ¬ (pyStrip raw) = "") (ht : translate_message (pyStrip raw) (.ok t) = .ok tx)
    (hsenders : ∀ e ∈ getConv st (conversation_key u p),
      e.sender = u ∨ (alookup st.users e.sender).isSome) :
    ∃ v, (send_message st u p raw (.ok t)).1 = .sent v := by
  have hcond : ¬ ((alookup st.users p).isNone = true ∨ p = u) := by
    simp [Option.isNone_iff_eq_none, Option.isSome_iff_exists] at hp ⊢
    obtain ⟨v, hv⟩ := hp
    simp [hv, hpu]
  obtain ⟨pd, hpd⟩ := Option.isSome_iff_exists.mp hp
  have husers : (save_message st u p (pyStrip raw) tx).2.users = st.users :=
    users_save st u p (pyStrip raw) tx
  have hconv : getConv (save_message st u p (pyStrip raw) tx).2 (conversation_key u p)
      = getConv st (conversation_key u p) ++
        [{ sender := u, recipient := p, original_text := (pyStrip raw),
           translated_text := tx }] := by
    rw [getConv_save]
    simp
  have hsenders' : ∀ e ∈ getConv (save_message st u p (pyStrip raw) tx).2
      (conversation_key u p),
      e.sender = u ∨ (alookup st.users e.sender).isSome := by
    rw [hconv]
    intro e he
    rcases List.mem_append.mp he with he | he
    · exact hsenders e he
    · simp at he
      subst he
      simp
  obtain ⟨r, hr⟩ := project_all_total st.users u pd _ hsenders'
  have hserialize : serialize_messages (save_message st u p (pyStrip raw) tx).2 u p false
      = some (r, (save_message st u p (pyStrip raw) tx).2) := by
    unfold serialize_messages
    simp [husers, hpd, hr]
  have hrlen : r.length = (getConv st (conversation_key u p)).length + 1 := by
    have hlen := project_all_length _ _ _ _ _ hr
    rw [hconv] at hlen
    simp at hlen
    omega
  have hrne : r ≠ [] := by
    intro hcontra
    rw [hcontra] at hrlen
    simp at hrlen
  obtain ⟨v, hv⟩ := Option.isSome_iff_exists.mp
    (List.getLast?_isSome.mpr hrne)
  refine ⟨v, ?_⟩
  unfold send_message
  rw [if_neg hcond, if_neg hm, ht]
  simp [hserialize, hv]

/-! ### The dashboard is read-only over users, logs and seen marks -/

/-- States `st` and `st'` agree on the users map, every conversation log, and
every seen-mark value. -/
def SameFrame (st st' : ChatState) : Prop :=
  st'.users = st.users ∧ st'.conversations = st.conversations ∧
    ∀ v k, getSeen st' v k = getSeen st v k

theorem sameFrame_rfl (st : ChatState) : SameFrame st st :=
  ⟨rfl, rfl, fun _ _ => rfl⟩

theorem sameFrame_trans {st1 st2 st3 : ChatState}
    (h1 : SameFrame st1 st2) (h2 : SameFrame st2 st3) : SameFrame st1 st3 :=
  ⟨h2.1.trans h1.1, h2.2.1.trans h1.2.1,
   fun v k => (h2.2.2 v k).trans (h1.2.2 v k)⟩

theorem sameFrame_ensure (st : ChatState) (u : String) :
    SameFrame st (ensure_user_seen st u).2 :=
  ⟨users_ensure st u, conversations_ensure st u, getSeen_ensure st u⟩

theorem matches_loop_frame (user ql : String) (l : List (String × UserData)) :
    ∀ st : ChatState, SameFrame st (matches_loop user ql st l).2 := by
  induction l with
  | nil => exact fun st => sameFrame_rfl st
  | cons hd tl ih =>
    intro st
    obtain ⟨uname, d⟩ := hd
    unfold matches_loop
    by_cases h1 : uname = user
    · rw [if_pos h1]
      exact ih st
    · rw [if_neg h1]
      by_cases h2 : ql = "" ∨ strContains (pyLower d.display_name) ql = true
      · rw [if_pos h2]
        exact sameFrame_trans (sameFrame_ensure st user)
          (ih (unread_count st user uname).2)
      · rw [if_neg h2]
        exact ih st

theorem recent_loop_frame (user : String)
    (kvs : List ((String × String) × List Entry)) :
    ∀ (st : ChatState) (seenp : List String),
      SameFrame st (recent_loop user st seenp kvs).2 := by
  induction kvs with
  | nil => exact fun st _ => sameFrame_rfl st
  | cons hd tl ih =>
    intro st seenp
    obtain ⟨key, lg⟩ := hd
    unfold recent_loop
    by_cases h1 : key.1 = user ∨ key.2 = user
    · rw [if_pos h1]
      cases h2 : alookup st.users (if key.1 ≠ user then key.1 else key.2) with
      | none =>
        simp only [h2]
        exact ih st seenp
      | some d =>
        by_cases h3 : seenp.contains (if key.1 ≠ user then key.1 else key.2) = true
        · simp only [h2, h3, if_true]
          exact ih st seenp
        · simp only [h2]
          rw [if_neg h3]
          exact sameFrame_trans (sameFrame_ensure st user) (ih _ _)
    · rw [if_neg h1]
      exact ih st seenp

theorem dashboard_frame (st : ChatState) (user query : String) :
    SameFrame st (build_dashboard_payload st user query).2 := by
  unfold build_dashboard_payload
  exact sameFrame_trans
    (matches_loop_frame user (pyLower (pyStrip query)) st.users st)
    (recent_loop_frame user _ _ [])

/-! ### Preservation of the seen-mark invariant -/

theorem getConv_register (st : ChatState) (u : String) (d : UserData)
    (k : String × String) : getConv (register_user st u d) k = getConv st k := rfl

theorem getSeen_register (st : ChatState) (u : String) (d : UserData)
    (v : String) (k : String × String) :
    getSeen (register_user st u d) v k = getSeen st v k := by
  unfold register_user
  rw [getSeen_ensure]
  rfl

theorem mark_inv (st : ChatState) (v p : String) (hinv : SeenInv st) :
    SeenInv (mark_conversation_seen st v p) := by
  intro v' k
  rw [getSeen_mark, getConv_mark]
  by_cases h : v' = v ∧ k = conversation_key v p
  · rw [if_pos h, h.2]
  · rw [if_neg h]
    exact hinv v' k

theorem mark_mono (st : ChatState) (v p : String) (hinv : SeenInv st)
    (v' : String) (k : String × String) :
    getSeen st v' k ≤ getSeen (mark_conversation_seen st v p) v' k := by
  rw [getSeen_mark]
  by_cases h : v' = v ∧ k = conversation_key v p
  · rw [if_pos h, ← h.2]
    exact hinv v' k
  · rw [if_neg h]

theorem save_inv (st : ChatState) (s r o t : String) (hinv : SeenInv st) :
    SeenInv (save_message st s r o t).2 := by
  intro v k
  rw [getSeen_save, getConv_save]
  by_cases h : v = s ∧ k = conversation_key s r
  · rw [if_pos h, if_pos h.2, h.2]
    simp
  · rw [if_neg h]
    by_cases hk : k = conversation_key s r
    · subst hk
      rw [if_pos rfl]
      simp
      have := hinv v (conversation_key s r)
      omega
    · rw [if_neg hk]
      exact hinv v k

theorem save_mono (st : ChatState) (s r o t : String) (hinv : SeenInv st)
    (v : String) (k : String × String) :
    getSeen st v k ≤ getSeen (save_message st s r o t).2 v k := by
  rw [getSeen_save]
  by_cases h : v = s ∧ k = conversation_key s r
  · obtain ⟨hv, hk⟩ := h
    subst hk
    rw [if_pos ⟨hv, rfl⟩]
    have := hinv v (conversation_key s r)
    omega
  · rw [if_neg h]

theorem send_error_state (st : ChatState) (u p raw e : String) :
    (send_message st u p raw (.error e)).2 = st := by
  unfold send_message
  by_cases h1 : (alookup st.users p).isNone = true ∨ p = u
  · rw [if_pos h1]
  · rw [if_neg h1]
    by_cases h2 : (pyStrip raw) = ""
    · rw [if_pos h2]
    · rw [if_neg h2]
      rfl

theorem send_state_cases (st : ChatState) (u p raw : String) (t : Option String) :
    (send_message st u p raw (.ok t)).2 = st ∨
      ∃ tx, (send_message st u p raw (.ok t)).2 =
        (save_message st u p (pyStrip raw) tx).2 := by
  by_cases h1 : (alookup st.users p).isNone = true ∨ p = u
  · left
    unfold send_message
    rw [if_pos h1]
  · by_cases h2 : (pyStrip raw) = ""
    · left
      unfold send_message
      rw [if_neg h1, if_pos h2]
    · push_neg at h1
      have hp : (alookup st.users p).isSome := by
        cases hl : alookup st.users p with
        | none => simp [hl] at h1
        | some v => simp
      exact Or.inr ⟨_, send_ok_state st u p raw t _ hp h1.2 h2 (translate_ok _ _)⟩

theorem step_preserves (st st' : ChatState) (h : Step st st') (hinv : SeenInv st) :
    SeenInv st' ∧ ∀ v k, getSeen st v k ≤ getSeen st' v k := by
  cases h with
  | register u d =>
    refine ⟨fun v k => ?_, fun v k => ?_⟩
    · rw [getSeen_register, getConv_register]
      exact hinv v k
    · rw [getSeen_register]
  | send u p raw r =>
    cases r with
    | error e =>
      rw [send_error_state]
      exact ⟨hinv, fun v k => le_refl _⟩
    | ok t =>
      rcases send_state_cases st u p raw t with hc | ⟨tx, hc⟩
      · rw [hc]
        exact ⟨hinv, fun v k => le_refl _⟩
      · rw [hc]
        exact ⟨save_inv st u p (pyStrip raw) tx hinv, save_mono st u p (pyStrip raw) tx hinv⟩
  | mark v p =>
    exact ⟨mark_inv st v p hinv, mark_mono st v p hinv⟩
  | list v p m vs =>
    rename_i hs
    have := serialize_state st v p m vs st' hs
    cases m with
    | false =>
      simp at this
      rw [this]
      exact ⟨hinv, fun v k => le_refl _⟩
    | true =>
      simp at this
      rw [this]
      exact ⟨mark_inv st v p hinv, mark_mono st v p hinv⟩
  | dash u q =>
    obtain ⟨hu, hc, hs⟩ := dashboard_frame st u q
    refine ⟨fun v k => ?_, fun v k => ?_⟩
    · rw [hs v k]
      unfold getConv
      rw [hc]
      exact hinv v k
    · rw [hs v k]

theorem reachable_inv (st : ChatState) (h : Reachable st) : SeenInv st := by
  induction h with
  | init =>
    intro v k
    simp [getSeen, initState, alookup]
  | step st st' h1 h2 ih => exact (step_preserves st st' h2 ih).1

/-! ### Idempotence of `mark_conversation_seen` -/

theorem chatstate_eq (a b : ChatState) (h1 : a.users = b.users)
    (h2 : a.conversations = b.conversations) (h3 : a.user_seen = b.user_seen) :
    a = b := by
  cases a
  cases b
  simp_all

theorem mark_user_seen (st : ChatState) (v p : String) :
    (mark_conversation_seen st v p).user_seen =
      ainsert (adefault st.user_seen v []) v
        (ainsert ((alookup st.user_seen v).getD [])
          (conversation_key v p) (getConv st (conversation_key v p)).length) := rfl

theorem mark_idem (st : ChatState) (v p : String) :
    mark_conversation_seen (mark_conversation_seen st v p) v p
      = mark_conversation_seen st v p := by
  refine chatstate_eq _ _ rfl rfl ?_
  have A : alookup (mark_conversation_seen st v p).user_seen v
      = some (ainsert ((alookup st.user_seen v).getD [])
          (conversation_key v p) (getConv st (conversation_key v p)).length) := by
    rw [mark_user_seen]
    exact alookup_ainsert_self _ _ _
  have C : adefault (mark_conversation_seen st v p).user_seen v []
      = (mark_conversation_seen st v p).user_seen := by
    unfold adefault
    rw [A]
  have D : ainsert
      (ainsert ((alookup st.user_seen v).getD []) (conversation_key v p)
        (getConv st (conversation_key v p)).length)
      (conversation_key v p) (getConv st (conversation_key v p)).length
      = ainsert ((alookup st.user_seen v).getD []) (conversation_key v p)
        (getConv st (conversation_key v p)).length :=
    ainsert_lookup_eq _ _ _ (alookup_ainsert_self _ _ _)
  calc (mark_conversation_seen (mark_conversation_seen st v p) v p).user_seen
      = ainsert (adefault (mark_conversation_seen st v p).user_seen v []) v
          (ainsert ((alookup (mark_conversation_seen st v p).user_seen v).getD [])
            (conversation_key v p)
            (getConv (mark_conversation_seen st v p) (conversation_key v p)).length) :=
        mark_user_seen _ v p
    _ = (mark_conversation_seen st v p).user_seen := by
        rw [C, A, getConv_mark]
        simp only [Option.getD_some]
        rw [D]
        exact ainsert_lookup_eq _ _ _ A

/-! ### Reachability of the demonstration state -/

theorem reachable_demoBase : Reachable demoBase :=
  Reachable.step _ _
    (Reachable.step _ _ Reachable.init
      (Step.register initState "alice" { display_name := "Alice", language := "English" }))
    (Step.register _ "bob" { display_name := "Bob", language := "French" })

theorem reachable_demoState : Reachable demoState :=
  Reachable.step _ _ reachable_demoBase
    (Step.send demoBase "alice" "bob" "Hello" (.ok (some "Bonjour")))

/-! ### The claims -/

/-- Claim C1: the canonical conversation key is symmetric —
`conversation_key a b = conversation_key b a` — and consequently a lookup,
an append (`save_message`), and a seen-mark update
(`mark_conversation_seen`) performed with the participants in either
order resolve to the same conversation log. -/
theorem c1_conversation_key_symmetric (a b : String) (st : ChatState)
    (o t : String) :
    conversation_key a b = conversation_key b a ∧
    getConv st (conversation_key a b) = getConv st (conversation_key b a) ∧
    getConv (save_message st a b o t).2 (conversation_key b a)
      = getConv st (conversation_key b a) ++ [(save_message st a b o t).1] ∧
    getSeen (mark_conversation_seen st a b) a (conversation_key b a)
      = (getConv st (conversation_key b a)).length ∧
    (unread_count st a b).1
      = max (((getConv st (conversation_key b a)).length : Int)
          - (getSeen st a (conversation_key b a) : Int)) 0 := by
  have hkey := conversation_key_comm a b
  refine ⟨hkey, by rw [hkey], ?_, ?_, ?_⟩
  · rw [← hkey, getConv_save, if_pos rfl, entry_save]
  · rw [← hkey, getSeen_mark, if_pos ⟨rfl, rfl⟩]
  · rw [unread_count_eq, hkey]

/-- Claim C2: when the provider call raises, `send_message` performs no
store mutation at all — the state comes back unchanged, so the log for
the pair and every seen mark are exactly as before — and the failure is
surfaced to the caller as the 500 error. -/
theorem c2_translation_failure_no_mutation (st : ChatState)
    (user partner raw e : String)
    (hp : (alookup st.users partner).isSome) (hpu : partner ≠ user)
    (hm : ¬ pyStrip raw = "") :
    (send_message st user partner raw (.error e)).2 = st ∧
    getConv (send_message st user partner raw (.error e)).2
        (conversation_key user partner)
      = getConv st (conversation_key user partner) ∧
    (∀ v k, getSeen (send_message st user partner raw (.error e)).2 v k
      = getSeen st v k) ∧
    (send_message st user partner raw (.error e)).1
      = .sendError ("Could not translate your message: " ++ e) := by
  have h := send_provider_error st user partner raw e hp hpu hm
  rw [h]
  exact ⟨rfl, rfl, fun v k => rfl, rfl⟩

/-- Closed instance of C2 on the demonstration state. -/
theorem c2_witness :
    (send_message demoState "bob" "alice" "Hi" (.error "boom")).2 = demoState ∧
    getConv (send_message demoState "bob" "alice" "Hi" (.error "boom")).2
        (conversation_key "bob" "alice")
      = getConv demoState (conversation_key "bob" "alice") ∧
    (∀ v k, getSeen (send_message demoState "bob" "alice" "Hi" (.error "boom")).2 v k
      = getSeen demoState v k) ∧
    (send_message demoState "bob" "alice" "Hi" (.error "boom")).1
      = .sendError ("Could not translate your message: " ++ "boom") :=
  c2_translation_failure_no_mutation demoState "bob" "alice" "Hi" "boom"
    (by decide) (by decide) (by decide)

/-- Claim C3: an empty-but-successful provider response (a `None` or `""`
`response.text`) is not a failure: the send still stores the message, and
the stored entry's `translated_text` equals its `original_text` (the
original duplicated into the translated slot); the route answers with the
rendered message rather than an error. -/
theorem c3_empty_translation_falls_back (st : ChatState)
    (user partner raw : String) (t : Option String)
    (hp : (alookup st.users partner).isSome) (hpu : partner ≠ user)
    (hm : ¬ pyStrip raw = "") (ht : t = none ∨ t = some "")
    (hsenders : ∀ e ∈ getConv st (conversation_key user partner),
      e.sender = user ∨ (alookup st.users e.sender).isSome) :
    translate_message (pyStrip raw) (.ok t) = .ok (pyStrip raw) ∧
    getConv (send_message st user partner raw (.ok t)).2
        (conversation_key user partner)
      = getConv st (conversation_key user partner)
        ++ [{ sender := user, recipient := partner,
              original_text := pyStrip raw, translated_text := pyStrip raw }] ∧
    ∃ v, (send_message st user partner raw (.ok t)).1 = .sent v := by
  have htx : translate_message (pyStrip raw) (.ok t) = .ok (pyStrip raw) := by
    rcases ht with h | h <;> subst h <;> simp [translate_message]
  refine ⟨htx, ?_,
    send_ok_sent st user partner raw t (pyStrip raw) hp hpu hm htx hsenders⟩
  rw [send_ok_state st user partner raw t (pyStrip raw) hp hpu hm htx,
    getConv_save, if_pos rfl]

/-- Closed instance of C3 on the demonstration state. -/
theorem c3_witness :
    translate_message (pyStrip "Hi") (.ok (some "")) = .ok (pyStrip "Hi") ∧
    getConv (send_message demoState "bob" "alice" "Hi" (.ok (some ""))).2
        (conversation_key "bob" "alice")
      = getConv demoState (conversation_key "bob" "alice")
        ++ [{ sender := "bob", recipient := "alice",
              original_text := pyStrip "Hi", translated_text := pyStrip "Hi" }] ∧
    ∃ v, (send_message demoState "bob" "alice" "Hi" (.ok (some ""))).1 = .sent v :=
  c3_empty_translation_falls_back demoState "bob" "alice" "Hi" (some "")
    (by decide) (by decide) (by decide) (Or.inr rfl) (by decide)

/-- Claim C4: for every stored message rendered by `serialize_messages`,
if the sender is the viewer then the primary text is the original text,
the secondary text the translated text, and the label "You"; otherwise
the primary text is the translated text with fallback to the original
when it is empty, the secondary text is the original, and the label is
the sender's display name as currently registered (looked up live from
the users map at projection time). -/
theorem c4_projection (st : ChatState) (viewer partner : String) (m : Bool)
    (views : List ViewEntry) (st' : ChatState)
    (h : serialize_messages st viewer partner m = some (views, st'))
    (i : Nat) (e : Entry)
    (he : (getConv st (conversation_key viewer partner))[i]? = some e) :
    ∃ w, views[i]? = some w ∧
      (if e.sender = viewer then
        w.primary_text = e.original_text ∧
        w.secondary_text = e.translated_text ∧ w.sender_label = "You"
      else
        w.primary_text
          = (if e.translated_text = "" then e.original_text
             else e.translated_text) ∧
        w.secondary_text = e.original_text ∧
        ∃ sd, alookup st.users e.sender = some sd ∧
          w.sender_label = sd.display_name) := by
  obtain ⟨pd, hpd, hproj⟩ := serialize_views st viewer partner m views st' h
  obtain ⟨w, hw, hpe⟩ := project_all_get st.users viewer pd _ views hproj i e he
  refine ⟨w, hw, ?_⟩
  unfold project_entry at hpe
  by_cases hs : e.sender = viewer
  · rw [if_pos hs] at hpe
    rw [if_pos hs]
    simp only [Option.some.injEq] at hpe
    subst hpe
    exact ⟨rfl, rfl, rfl⟩
  · rw [if_neg hs] at hpe
    rw [if_neg hs]
    cases hsd : alookup st.users e.sender with
    | none =>
      rw [hsd] at hpe
      simp at hpe
    | some sd =>
      rw [hsd] at hpe
      simp only [Option.some.injEq] at hpe
      subst hpe
      exact ⟨rfl, rfl, sd, rfl, rfl⟩

/-- Closed instance of C4 on the demonstration state: bob views the
message alice sent him. -/
theorem c4_witness :
    ∃ w, demoViews[0]? = some w ∧
      (if demoEntry.sender = "bob" then
        w.primary_text = demoEntry.original_text ∧
        w.secondary_text = demoEntry.translated_text ∧ w.sender_label = "You"
      else
        w.primary_text
          = (if demoEntry.translated_text = "" then demoEntry.original_text
             else demoEntry.translated_text) ∧
        w.secondary_text = demoEntry.original_text ∧
        ∃ sd, alookup demoState.users demoEntry.sender = some sd ∧
          w.sender_label = sd.display_name) :=
  c4_projection demoState "bob" "alice" false demoViews demoState (by decide)
    0 demoEntry (by decide)

/-- Claim C5: `unread_count(viewer, partner)` equals
`max(len(log) - seen, 0)` over the canonical key, hence is never
negative, and a missing seen mark defaults to 0. -/
theorem c5_unread_count (st : ChatState) (viewer partner : String) :
    (unread_count st viewer partner).1
      = max (((getConv st (conversation_key viewer partner)).length : Int)
          - (getSeen st viewer (conversation_key viewer partner) : Int)) 0 ∧
    0 ≤ (unread_count st viewer partner).1 ∧
    (alookup st.user_seen viewer = none →
      getSeen st viewer (conversation_key viewer partner) = 0) := by
  refine ⟨unread_count_eq st viewer partner, ?_, ?_⟩
  · rw [unread_count_eq]
    exact le_max_right _ _
  · intro h
    simp [getSeen, h, alookup]

/-- Closed instance of C5 for a viewer with no seen dictionary at all. -/
theorem c5_witness :
    (unread_count demoState "ghost" "alice").1
      = max (((getConv demoState (conversation_key "ghost" "alice")).length : Int)
          - (getSeen demoState "ghost" (conversation_key "ghost" "alice") : Int)) 0 ∧
    0 ≤ (unread_count demoState "ghost" "alice").1 ∧
    (alookup demoState.user_seen "ghost" = none →
      getSeen demoState "ghost" (conversation_key "ghost" "alice") = 0) :=
  c5_unread_count demoState "ghost" "alice"

/-- Claim C6: after A successfully sends a message to B in a state
satisfying the seen-mark invariant in which B had 0 unread for the pair,
A's unread count for the pair is 0 (the send advanced A's own seen mark
to the new length) and B's is 1. -/
theorem c6_send_sets_unread (st : ChatState) (a b raw : String)
    (t : Option String) (hinv : SeenInv st)
    (hp : (alookup st.users b).isSome) (hab : b ≠ a)
    (hm : ¬ pyStrip raw = "")
    (h0 : (unread_count st b a).1 = 0) :
    (unread_count (send_message st a b raw (.ok t)).2 a b).1 = 0 ∧
    (unread_count (send_message st a b raw (.ok t)).2 b a).1 = 1 := by
  obtain ⟨tx, htx⟩ : ∃ tx, translate_message (pyStrip raw) (.ok t) = .ok tx :=
    ⟨_, translate_ok (pyStrip raw) t⟩
  rw [send_ok_state st a b raw t tx hp hab hm htx]
  have hkey : conversation_key b a = conversation_key a b :=
    conversation_key_comm b a
  constructor
  · rw [unread_count_eq, getConv_save, getSeen_save, if_pos rfl,
      if_pos ⟨rfl, rfl⟩]
    simp
  · rw [unread_count_eq, hkey, getConv_save, getSeen_save, if_pos rfl,
      if_neg (by simp [hab])]
    rw [unread_count_eq, hkey] at h0
    have hs : (getSeen st b (conversation_key a b) : Int)
        ≤ ((getConv st (conversation_key a b)).length : Int) := by
      exact_mod_cast hinv b (conversation_key a b)
    have h0' : ((getConv st (conversation_key a b)).length : Int)
        - (getSeen st b (conversation_key a b) : Int) ≤ 0 := by
      have hle := le_max_left
        (((getConv st (conversation_key a b)).length : Int)
          - (getSeen st b (conversation_key a b) : Int)) (0 : Int)
      rw [h0] at hle
      exact hle
    have hlen : ((getConv st (conversation_key a b)
        ++ [({ sender := a, recipient := b, original_text := pyStrip raw,
               translated_text := tx } : Entry)]).length : Int)
        = ((getConv st (conversation_key a b)).length : Int) + 1 := by
      simp
    rw [hlen]
    have hone : ((getConv st (conversation_key a b)).length : Int) + 1
        - (getSeen st b (conversation_key a b) : Int) = 1 := by
      omega
    rw [hone]
    simp

/-- Closed instance of C6 on the demonstration state: bob replies to the
conversation he is fully caught up on having seen nothing unread as the
authoring side. -/
theorem c6_witness :
    (unread_count (send_message demoState "bob" "alice" "Salut"
        (.ok (some "Hi"))).2 "bob" "alice").1 = 0 ∧
    (unread_count (send_message demoState "bob" "alice" "Salut"
        (.ok (some "Hi"))).2 "alice" "bob").1 = 1 :=
  c6_send_sets_unread demoState "bob" "alice" "Salut" (some "Hi")
    (reachable_inv demoState reachable_demoState)
    (by decide) (by decide) (by decide) (by decide)

/-- Claim C7: `mark_conversation_seen` sets the viewer's seen mark for
the canonical key to the log's current length, it is idempotent (a second
call with no intervening append leaves the state — hence the seen mark —
exactly as after the first), and it leaves zero unread messages. -/
theorem c7_mark_seen_idempotent (st : ChatState) (viewer partner : String) :
    getSeen (mark_conversation_seen st viewer partner) viewer
        (conversation_key viewer partner)
      = (getConv st (conversation_key viewer partner)).length ∧
    mark_conversation_seen (mark_conversation_seen st viewer partner)
        viewer partner
      = mark_conversation_seen st viewer partner ∧
    (unread_count (mark_conversation_seen st viewer partner)
        viewer partner).1 = 0 := by
  refine ⟨?_, mark_idem st viewer partner, ?_⟩
  · rw [getSeen_mark, if_pos ⟨rfl, rfl⟩]
  · rw [unread_count_eq, getConv_mark, getSeen_mark, if_pos ⟨rfl, rfl⟩]
    simp

/-- Claim C8: in every state reachable by the core operations the
seen-mark invariant `0 ≤ seen ≤ len(log)` holds for every viewer and
key, and no single further operation decreases any seen mark. -/
theorem c8_seen_invariant (st st' : ChatState) (h : Reachable st) :
    (∀ v k, 0 ≤ getSeen st v k ∧ getSeen st v k ≤ (getConv st k).length) ∧
    (Step st st' → ∀ v k, getSeen st v k ≤ getSeen st' v k) := by
  have hinv := reachable_inv st h
  exact ⟨fun v k => ⟨Nat.zero_le _, hinv v k⟩,
    fun hs => (step_preserves st st' hs hinv).2⟩

/-- Closed instance of C8 at the reachable demonstration state and the
step in which bob marks the conversation seen. -/
theorem c8_witness :
    (∀ v k, 0 ≤ getSeen demoState v k ∧
      getSeen demoState v k ≤ (getConv demoState k).length) ∧
    (Step demoState (mark_conversation_seen demoState "bob" "alice") →
      ∀ v k, getSeen demoState v k
        ≤ getSeen (mark_conversation_seen demoState "bob" "alice") v k) :=
  c8_seen_invariant demoState (mark_conversation_seen demoState "bob" "alice")
    reachable_demoState

/-- Claim C9: building the dashboard payload is read-only over the other
components — it leaves the users map, every conversation log, and every
seen-mark value unchanged (its only state effect is `ensure_user_seen`'s
insertion of an empty per-viewer dictionary) — and, being total, it has
no failure mode beyond returning empty lists. -/
theorem c9_dashboard_read_only (st : ChatState) (user query : String) :
    (build_dashboard_payload st user query).2.users = st.users ∧
    (build_dashboard_payload st user query).2.conversations = st.conversations ∧
    (∀ k, getConv (build_dashboard_payload st user query).2 k = getConv st k) ∧
    (∀ v k, getSeen (build_dashboard_payload st user query).2 v k
      = getSeen st v k) := by
  obtain ⟨h1, h2, h3⟩ := dashboard_frame st user query
  refine ⟨h1, h2, fun k => ?_, h3⟩
  unfold getConv
  rw [h2]

/-- Claim C10: `serialize_messages` looks the partner up unconditionally,
before touching the (possibly empty) log, so it fails (`none`) for every
unregistered partner id; and under the precondition that the partner and
the sender of every stored message are registered, it never fails. -/
theorem c10_serialize_partner_lookup (st : ChatState)
    (viewer partner : String) (m : Bool) :
    (alookup st.users partner = none →
      serialize_messages st viewer partner m = none) ∧
    (∀ pd, alookup st.users partner = some pd →
      (∀ e ∈ getConv st (conversation_key viewer partner),
        (alookup st.users e.sender).isSome) →
      ∃ vs st', serialize_messages st viewer partner m = some (vs, st')) := by
  constructor
  · intro h
    unfold serialize_messages
    simp [h]
  · intro pd hpd hsenders
    obtain ⟨r, hr⟩ := project_all_total st.users viewer pd _
      (fun e he => Or.inr (hsenders e he))
    refine ⟨r,
      if m then mark_conversation_seen st viewer partner else st, ?_⟩
    unfold serialize_messages
    simp [hpd, hr]

/-- Closed instance of C10 on the demonstration state: listing against an
unregistered partner fails even though that pair's log is empty, while
listing the populated conversation with a registered partner succeeds. -/
theorem c10_witness :
    serialize_messages demoState "alice" "ghost" false = none ∧
    ∃ vs st', serialize_messages demoState "bob" "alice" false
      = some (vs, st') := by
  have h1 := c10_serialize_partner_lookup demoState "alice" "ghost" false
  have h2 := c10_serialize_partner_lookup demoState "bob" "alice" false
  exact ⟨h1.1 (by decide),
    h2.2 { display_name := "Alice", language := "English" } (by decide)
      (by decide)⟩
